import Mathlib

/-!
Shallow embedding of the task-execution core of the `flatman-clients`
repository: the runner implementations of `fatman_clients/runners.py`
(DirectRunner.run, SlurmRunner.check, MPIRunner.__init__) and the daemon
loop of `fatman_clients/fdaemon.py` (task_iterator, the per-task body of
`main`, DirectRunner.check).

External effects (subprocess exit statuses, `open` success, squeue/sacct
output, the filesystem, HTTP responses) are supplied as explicit oracle
inputs; the embedded functions mirror the Python control flow over those
oracles.  Exceptions are modelled as explicit outcome values.
-/

namespace Flatman

/-- One entry of `settings['commands']`: `{name, cmd, args, ignore_returncode}`.
`ignore_returncode` models `entry.get('ignore_returncode', False)`. -/
structure Command where
  name : String
  cmd : String
  args : List String
  ignore_returncode : Bool
deriving Repr, DecidableEq

/-- A warning/error entry appended to `data['warnings']` / `data['errors']`
by the direct runner and the daemon: `{tag, entry, msg, [returncode]}`. -/
structure DataEntry where
  tag : String
  entry : String
  msg : String
  returncode : Option Int
deriving Repr, DecidableEq

/-- Oracle outcome of one `subprocess.check_call` / `check_output` call:
normal termination with exit status 0, a `CalledProcessError` carrying the
non-zero exit status, or any other exception. -/
inductive ExecResult
  | ok : ExecResult
  | exit (returncode : Int) : ExecResult
  | exn (msg : String) : ExecResult
deriving Repr, DecidableEq

/-- How control leaves `DirectRunner.run`: normal return, a raised
`ClientError` (failure to open a log file), a propagated
`subprocess.CalledProcessError`, or any other propagated exception. -/
inductive RunOutcome
  | normal : RunOutcome
  | clientError : RunOutcome
  | calledProcess : RunOutcome
  | otherExc : RunOutcome
deriving Repr, DecidableEq

/-- External-world oracle for `DirectRunner.run` (runners.py:204-281):
whether opening a given file for writing succeeds, the outcome of running
each command, and the outcome of the `modulecmd` invocation. -/
structure DirectEnv where
  taskDir : String
  openOk : String → Bool
  exec : Command → ExecResult
  modResult : ExecResult

/-- The `<name>.out` path of a command (runners.py:236). -/
def stdoutFn (env : DirectEnv) (name : String) : String :=
  env.taskDir ++ "/" ++ name ++ ".out"

/-- The `<name>.err` path of a command (runners.py:237). -/
def stderrFn (env : DirectEnv) (name : String) : String :=
  env.taskDir ++ "/" ++ name ++ ".err"

/-- Python `set.add`: a deduplicating append on the list modelling
`self.outfiles`. -/
def setAdd (xs : List String) (x : String) : List String :=
  if x ∈ xs then xs else xs ++ [x]

/-- Mutable state of a `DirectRunner` instance (RunnerBase fields), plus
`executed`: the observation of which commands were handed to
`subprocess.check_call`, in order. -/
structure DirectState where
  outfiles : List String
  warnings : List DataEntry
  errors : List DataEntry
  finished : Bool
  success : Bool
  runningCalled : Bool
  executed : List String
deriving Repr, DecidableEq

/-- The fresh state built by `RunnerBase.__init__` (runners.py:26-36). -/
def directInit : DirectState :=
  { outfiles := [], warnings := [], errors := [], finished := false,
    success := false, runningCalled := false, executed := [] }

/-- The `finally` block of the per-command `try` (runners.py:275-279):
add both log paths to `outfiles`. -/
def addOutfiles (env : DirectEnv) (s : DirectState) (name : String) : DirectState :=
  { s with outfiles := setAdd (setAdd s.outfiles (stdoutFn env name)) (stderrFn env name) }

/-- The error/warning entry built for a command that exited non-zero
(runners.py:239-242,261-262). -/
def rcEntry (name : String) (rc : Int) : DataEntry :=
  { tag := "commands", entry := name,
    msg := "command terminated with non-zero exit status", returncode := some rc }

/-- The error entry built for a command whose execution raised an
exception other than `CalledProcessError` (runners.py:270-273). -/
def excEntry (name : String) (m : String) : DataEntry :=
  { tag := "commands", entry := name,
    msg := "error occurred while running: " ++ m, returncode := none }

/-- The `for entry in self._settings['commands']` loop of
`DirectRunner.run` (runners.py:234-281).  Opening either log file fails →
`ClientError` (that command's `finally` never runs, so its paths are not
added to `outfiles`).  A non-zero exit is a warning (and the loop
continues) when `ignore_returncode` is set, else an error entry is
appended and the `CalledProcessError` propagates; any other exception
appends an error entry and propagates.  `self.success = True`
(runners.py:281) runs only when the loop completes. -/
def runCommands (env : DirectEnv) : List Command → DirectState → DirectState × RunOutcome
  | [], s => ({ s with success := true }, RunOutcome.normal)
  | c :: cs, s =>
    if env.openOk (stdoutFn env c.name) ∧ env.openOk (stderrFn env c.name) then
      let s1 : DirectState := { s with executed := s.executed ++ [c.name] }
      match env.exec c with
      | ExecResult.ok => runCommands env cs (addOutfiles env s1 c.name)
      | ExecResult.exit rc =>
        if c.ignore_returncode then
          runCommands env cs
            (addOutfiles env { s1 with warnings := s1.warnings ++ [rcEntry c.name rc] } c.name)
        else
          (addOutfiles env { s1 with errors := s1.errors ++ [rcEntry c.name rc] } c.name,
           RunOutcome.calledProcess)
      | ExecResult.exn m =>
        (addOutfiles env { s1 with errors := s1.errors ++ [excEntry c.name m] } c.name,
         RunOutcome.otherExc)
    else (s, RunOutcome.clientError)

/-- `DirectRunner.run` (runners.py:204-281) on a fresh runner:
`running_task_func()` is called first, `finished` is set before anything
can fail, the optional `modulecmd` invocation may propagate an exception
before any command runs, then the command loop executes. -/
def directRun (env : DirectEnv) (modules : List String) (cmds : List Command) :
    DirectState × RunOutcome :=
  let s1 : DirectState := { directInit with runningCalled := true, finished := true }
  if modules.isEmpty then runCommands env cmds s1
  else
    match env.modResult with
    | ExecResult.ok => runCommands env cmds s1
    | ExecResult.exit _ => (s1, RunOutcome.calledProcess)
    | ExecResult.exn _ => (s1, RunOutcome.otherExc)

/-- A command for which `DirectRunner.run`'s loop body completes without
any raised or recorded failure: both log files open and the subprocess
exits 0. -/
def CleanPass (env : DirectEnv) (c : Command) : Prop :=
  env.openOk (stdoutFn env c.name) = true ∧ env.openOk (stderrFn env c.name) = true ∧
    env.exec c = ExecResult.ok

instance (env : DirectEnv) (c : Command) : Decidable (CleanPass env c) := by
  unfold CleanPass; infer_instance

/-- State transformation performed by the loop body for a cleanly passing
command. -/
def passStep (env : DirectEnv) (s : DirectState) (c : Command) : DirectState :=
  addOutfiles env { s with executed := s.executed ++ [c.name] } c.name

@[simp] lemma addOutfiles_errors (env : DirectEnv) (s : DirectState) (n : String) :
    (addOutfiles env s n).errors = s.errors := rfl

@[simp] lemma addOutfiles_warnings (env : DirectEnv) (s : DirectState) (n : String) :
    (addOutfiles env s n).warnings = s.warnings := rfl

@[simp] lemma addOutfiles_finished (env : DirectEnv) (s : DirectState) (n : String) :
    (addOutfiles env s n).finished = s.finished := rfl

@[simp] lemma addOutfiles_success (env : DirectEnv) (s : DirectState) (n : String) :
    (addOutfiles env s n).success = s.success := rfl

@[simp] lemma addOutfiles_executed (env : DirectEnv) (s : DirectState) (n : String) :
    (addOutfiles env s n).executed = s.executed := rfl

@[simp] lemma passStep_errors (env : DirectEnv) (s : DirectState) (c : Command) :
    (passStep env s c).errors = s.errors := rfl

@[simp] lemma passStep_warnings (env : DirectEnv) (s : DirectState) (c : Command) :
    (passStep env s c).warnings = s.warnings := rfl

@[simp] lemma passStep_finished (env : DirectEnv) (s : DirectState) (c : Command) :
    (passStep env s c).finished = s.finished := rfl

@[simp] lemma passStep_success (env : DirectEnv) (s : DirectState) (c : Command) :
    (passStep env s c).success = s.success := rfl

@[simp] lemma passStep_executed (env : DirectEnv) (s : DirectState) (c : Command) :
    (passStep env s c).executed = s.executed ++ [c.name] := rfl

lemma foldl_passStep_errors (env : DirectEnv) :
    ∀ (pre : List Command) (s : DirectState),
      (pre.foldl (passStep env) s).errors = s.errors := by
  intro pre
  induction pre with
  | nil => intro s; rfl
  | cons c cs ih => intro s; simpa using ih (passStep env s c)

lemma foldl_passStep_warnings (env : DirectEnv) :
    ∀ (pre : List Command) (s : DirectState),
      (pre.foldl (passStep env) s).warnings = s.warnings := by
  intro pre
  induction pre with
  | nil => intro s; rfl
  | cons c cs ih => intro s; simpa using ih (passStep env s c)

lemma foldl_passStep_finished (env : DirectEnv) :
    ∀ (pre : List Command) (s : DirectState),
      (pre.foldl (passStep env) s).finished = s.finished := by
  intro pre
  induction pre with
  | nil => intro s; rfl
  | cons c cs ih => intro s; simpa using ih (passStep env s c)

lemma foldl_passStep_success (env : DirectEnv) :
    ∀ (pre : List Command) (s : DirectState),
      (pre.foldl (passStep env) s).success = s.success := by
  intro pre
  induction pre with
  | nil => intro s; rfl
  | cons c cs ih => intro s; simpa using ih (passStep env s c)

lemma foldl_passStep_executed (env : DirectEnv) :
    ∀ (pre : List Command) (s : DirectState),
      (pre.foldl (passStep env) s).executed = s.executed ++ pre.map Command.name := by
  intro pre
  induction pre with
  | nil => intro s; simp
  | cons c cs ih =>
    intro s
    rw [List.foldl_cons, ih (passStep env s c)]
    simp

/-- Commands whose loop body completes cleanly leave the outcome to the
rest of the list: the loop over `pre ++ rest` equals the loop over `rest`
started from the state folded through `pre`. -/
lemma runCommands_append (env : DirectEnv) (pre : List Command) (rest : List Command) :
    ∀ s : DirectState, (∀ x ∈ pre, CleanPass env x) →
      runCommands env (pre ++ rest) s = runCommands env rest (pre.foldl (passStep env) s) := by
  induction pre with
  | nil => intro s _; rfl
  | cons c cs ih =>
    intro s h
    obtain ⟨h1, h2, h3⟩ := h c (by simp)
    rw [List.cons_append, runCommands, if_pos ⟨h1, h2⟩, h3]
    exact ih _ (fun x hx => h x (by simp [hx]))

/-- Loop step for a command that exits non-zero with
`ignore_returncode = false`: error entry appended, `CalledProcessError`
propagates, the remaining commands are not attempted. -/
lemma runCommands_cons_fail (env : DirectEnv) (c : Command) (cs : List Command)
    (s : DirectState) (rc : Int)
    (hout : env.openOk (stdoutFn env c.name) = true)
    (herr : env.openOk (stderrFn env c.name) = true)
    (hexec : env.exec c = ExecResult.exit rc)
    (hig : c.ignore_returncode = false) :
    runCommands env (c :: cs) s =
      (addOutfiles env
        { s with executed := s.executed ++ [c.name],
                 errors := s.errors ++ [rcEntry c.name rc] } c.name,
       RunOutcome.calledProcess) := by
  simp [runCommands, hout, herr, hexec, hig]

/-- Loop step for a command that exits non-zero with
`ignore_returncode = true`: warning entry appended, the loop continues
with the remaining commands. -/
lemma runCommands_cons_ignored (env : DirectEnv) (c : Command) (cs : List Command)
    (s : DirectState) (rc : Int)
    (hout : env.openOk (stdoutFn env c.name) = true)
    (herr : env.openOk (stderrFn env c.name) = true)
    (hexec : env.exec c = ExecResult.exit rc)
    (hig : c.ignore_returncode = true) :
    runCommands env (c :: cs) s =
      runCommands env cs
        (addOutfiles env
          { s with executed := s.executed ++ [c.name],
                   warnings := s.warnings ++ [rcEntry c.name rc] } c.name) := by
  simp [runCommands, hout, herr, hexec, hig]

/-- A list of cleanly passing commands drives the loop to completion:
final state is the fold with `success` set. -/
lemma runCommands_clean (env : DirectEnv) (post : List Command) (s : DirectState)
    (h : ∀ x ∈ post, CleanPass env x) :
    runCommands env post s =
      ({ post.foldl (passStep env) s with success := true }, RunOutcome.normal) := by
  have h2 := runCommands_append env post [] s h
  rw [List.append_nil] at h2
  rw [h2]; rfl

/-- When the module list is empty or `modulecmd` succeeds, `run` is the
command loop started from the post-preamble state. -/
lemma directRun_eq (env : DirectEnv) (modules : List String) (cmds : List Command)
    (h : modules.isEmpty = true ∨ env.modResult = ExecResult.ok) :
    directRun env modules cmds =
      runCommands env cmds { directInit with runningCalled := true, finished := true } := by
  unfold directRun
  rcases h with h | h
  · simp [h]
  · by_cases hm : modules.isEmpty <;> simp [hm, h]

/-- C1: For every Direct task with a list of commands executed by
`DirectRunner.run`, commands are attempted in declared order; if command
`k` exits non-zero and its `ignore_returncode` flag is false, an error
entry (tag `"commands"`, entry = the command's name) is appended to
`data.errors`, no command after `k` is attempted, `success` is false and
`finished` is true; if its `ignore_returncode` flag is true, a warning
entry is appended to `data.warnings` instead and execution continues with
command `k+1`. -/
theorem direct_run_command_sequence (env : DirectEnv) (modules : List String)
    (pre : List Command) (c : Command) (post : List Command) (rc : Int)
    (hmod : modules.isEmpty = true ∨ env.modResult = ExecResult.ok)
    (hpre : ∀ x ∈ pre, CleanPass env x)
    (hout : env.openOk (stdoutFn env c.name) = true)
    (herr : env.openOk (stderrFn env c.name) = true)
    (hexec : env.exec c = ExecResult.exit rc) :
    (c.ignore_returncode = false →
      (directRun env modules (pre ++ c :: post)).2 = RunOutcome.calledProcess ∧
      (directRun env modules (pre ++ c :: post)).1.finished = true ∧
      (directRun env modules (pre ++ c :: post)).1.success = false ∧
      (directRun env modules (pre ++ c :: post)).1.errors = [rcEntry c.name rc] ∧
      (directRun env modules (pre ++ c :: post)).1.executed =
        pre.map Command.name ++ [c.name]) ∧
    (c.ignore_returncode = true → (∀ x ∈ post, CleanPass env x) →
      (directRun env modules (pre ++ c :: post)).2 = RunOutcome.normal ∧
      (directRun env modules (pre ++ c :: post)).1.finished = true ∧
      (directRun env modules (pre ++ c :: post)).1.success = true ∧
      (directRun env modules (pre ++ c :: post)).1.errors = [] ∧
      (directRun env modules (pre ++ c :: post)).1.warnings = [rcEntry c.name rc] ∧
      (directRun env modules (pre ++ c :: post)).1.executed =
        pre.map Command.name ++ [c.name] ++ post.map Command.name) := by
  have hred := directRun_eq env modules (pre ++ c :: post) hmod
  set s1 : DirectState := { directInit with runningCalled := true, finished := true } with hs1
  have happ := runCommands_append env pre (c :: post) s1 hpre
  constructor
  · intro hig
    rw [hred, happ, runCommands_cons_fail env c post _ rc hout herr hexec hig]
    refine ⟨rfl, ?_, ?_, ?_, ?_⟩ <;>
      simp [foldl_passStep_finished, foldl_passStep_success, foldl_passStep_errors,
        foldl_passStep_executed, hs1, directInit]
  · intro hig hpost
    rw [hred, happ, runCommands_cons_ignored env c post _ rc hout herr hexec hig,
      runCommands_clean env post _ hpost]
    refine ⟨rfl, ?_, ?_, ?_, ?_, ?_⟩ <;>
      simp [foldl_passStep_finished, foldl_passStep_success, foldl_passStep_errors,
        foldl_passStep_warnings, foldl_passStep_executed, hs1, directInit,
        List.append_assoc]

/-- Concrete command that exits 0 under `wEnvC1`. -/
def wCmdA : Command := { name := "a", cmd := "/bin/a", args := [], ignore_returncode := false }

/-- Concrete command that exits 2 under `wEnvC1`, `ignore_returncode` unset. -/
def wCmdBad : Command := { name := "bad", cmd := "/bin/b", args := [], ignore_returncode := false }

/-- Concrete command that exits 2 under `wEnvC1`, `ignore_returncode` set. -/
def wCmdIgn : Command := { name := "ign", cmd := "/bin/i", args := [], ignore_returncode := true }

/-- Concrete command that exits 0 under `wEnvC1`. -/
def wCmdZ : Command := { name := "z", cmd := "/bin/z", args := [], ignore_returncode := false }

/-- Concrete oracle: every `open` succeeds; the commands named `bad` and
`ign` exit with status 2, all others with 0. -/
def wEnvC1 : DirectEnv :=
  { taskDir := "wd",
    openOk := fun _ => true,
    exec := fun c => if c.name = "bad" ∨ c.name = "ign" then ExecResult.exit 2 else ExecResult.ok,
    modResult := ExecResult.ok }

/-- Witness for `direct_run_command_sequence` at a concrete three-command
task, in both the aborting and the `ignore_returncode` scenario. -/
theorem direct_run_command_sequence_witness :
    ((directRun wEnvC1 [] ([wCmdA] ++ wCmdBad :: [wCmdZ])).2 = RunOutcome.calledProcess ∧
     (directRun wEnvC1 [] ([wCmdA] ++ wCmdBad :: [wCmdZ])).1.finished = true ∧
     (directRun wEnvC1 [] ([wCmdA] ++ wCmdBad :: [wCmdZ])).1.success = false ∧
     (directRun wEnvC1 [] ([wCmdA] ++ wCmdBad :: [wCmdZ])).1.errors = [rcEntry wCmdBad.name 2] ∧
     (directRun wEnvC1 [] ([wCmdA] ++ wCmdBad :: [wCmdZ])).1.executed =
       List.map Command.name [wCmdA] ++ [wCmdBad.name]) ∧
    ((directRun wEnvC1 [] ([wCmdA] ++ wCmdIgn :: [wCmdZ])).2 = RunOutcome.normal ∧
     (directRun wEnvC1 [] ([wCmdA] ++ wCmdIgn :: [wCmdZ])).1.finished = true ∧
     (directRun wEnvC1 [] ([wCmdA] ++ wCmdIgn :: [wCmdZ])).1.success = true ∧
     (directRun wEnvC1 [] ([wCmdA] ++ wCmdIgn :: [wCmdZ])).1.errors = [] ∧
     (directRun wEnvC1 [] ([wCmdA] ++ wCmdIgn :: [wCmdZ])).1.warnings = [rcEntry wCmdIgn.name 2] ∧
     (directRun wEnvC1 [] ([wCmdA] ++ wCmdIgn :: [wCmdZ])).1.executed =
       List.map Command.name [wCmdA] ++ [wCmdIgn.name] ++ List.map Command.name [wCmdZ]) :=
  ⟨(direct_run_command_sequence wEnvC1 [] [wCmdA] wCmdBad [wCmdZ] 2
      (Or.inl rfl) (by decide) (by decide) (by decide) (by decide)).1 (by decide),
   (direct_run_command_sequence wEnvC1 [] [wCmdA] wCmdIgn [wCmdZ] 2
      (Or.inl rfl) (by decide) (by decide) (by decide) (by decide)).2 (by decide) (by decide)⟩

/-! ## SlurmRunner.check (runners.py:57-128) -/

/-- One data line of `sacct --long --parsable2`, restricted to the
columns the code consults: `jobname`, `state`, `exitcode`. -/
structure SacctRow where
  jobname : String
  state : String
  exitcode : String
deriving Repr, DecidableEq

/-- A warning/error entry appended by `SlurmRunner.check`; its
`returncode` is the raw `exitcode` accounting string. -/
structure SEntry where
  tag : String
  entry : String
  msg : String
  returncode : String
deriving Repr, DecidableEq

/-- The dict comprehension
`{d['jobname']: d for d in ...}` (runners.py:93) keyed by job name:
a later line with the same name overwrites an earlier one, so lookup
returns the last matching row. -/
def lookupLast (rows : List SacctRow) (k : String) : Option SacctRow :=
  (rows.filter (fun r => r.jobname == k)).getLast?

/-- The slice of `settings` consulted by `SlurmRunner.check`: the task
name (`settings['name']`) and the configured commands
(`settings['commands']`; only their names are read). -/
structure SlurmSettings where
  name : String
  commands : List Command

/-- Mutable state of a `SlurmRunner` instance; `dataRunner` models
`data['runner'] = {'commands': sacct_data}` as the raw accounting rows. -/
structure SlurmState where
  outfiles : List String
  warnings : List SEntry
  errors : List SEntry
  dataRunner : Option (List SacctRow)
  finished : Bool
  success : Bool
deriving Repr, DecidableEq

/-- The fresh state built by `RunnerBase.__init__`. -/
def slurmInit : SlurmState :=
  { outfiles := [], warnings := [], errors := [], dataRunner := none,
    finished := false, success := false }

/-- How control leaves `SlurmRunner.check`: normal return, the
`RuntimeError` for a job absent from both squeue and sacct, or the
uncaught `KeyError` when the parent job name has no accounting row. -/
inductive CheckOutcome
  | normal : CheckOutcome
  | runtimeError : CheckOutcome
  | keyError : CheckOutcome
deriving Repr, DecidableEq

/-- External-world oracle for `SlurmRunner.check`: whether the stripped
`squeue` output is non-empty, the `sacct` data rows, and file existence
on the local disk. -/
structure SlurmEnv where
  taskDir : String
  squeueNonempty : Bool
  rows : List SacctRow
  fileExists : String → Bool

/-- The `<name>.out` path probed by check (runners.py:119). -/
def soutFn (env : SlurmEnv) (name : String) : String :=
  env.taskDir ++ "/" ++ name ++ ".out"

/-- The `<name>.err` path probed by check (runners.py:120). -/
def serrFn (env : SlurmEnv) (name : String) : String :=
  env.taskDir ++ "/" ++ name ++ ".err"

/-- The entry appended for a command whose accounting state is not
`COMPLETED` (runners.py:111-116). -/
def slurmEntry (name : String) (exitcode : String) : SEntry :=
  { tag := "commands", entry := name,
    msg := "command terminated with non-zero exit status", returncode := exitcode }

/-- Body of `for entry in self._settings['commands']`
(runners.py:103-128): a command with no accounting row is skipped
(`KeyError` caught); one whose state is not `COMPLETED` gets an entry in
`warnings` if `self.success` is set, else in `errors`, and its `.out` /
`.err` files are added to `outfiles` when they exist. -/
def slurmCmdStep (env : SlurmEnv) (s : SlurmState) (c : Command) : SlurmState :=
  match lookupLast env.rows c.name with
  | none => s
  | some row =>
    if row.state ≠ "COMPLETED" then
      let e := slurmEntry c.name row.exitcode
      let s1 := if s.success then { s with warnings := s.warnings ++ [e] }
                else { s with errors := s.errors ++ [e] }
      let s2 := if env.fileExists (soutFn env c.name) then
                  { s1 with outfiles := setAdd s1.outfiles (soutFn env c.name) }
                else s1
      if env.fileExists (serrFn env c.name) then
        { s2 with outfiles := setAdd s2.outfiles (serrFn env c.name) }
      else s2
    else s

/-- `SlurmRunner.check` (runners.py:57-128).  A job still in the live
queue returns immediately with nothing changed.  Otherwise `finished` is
set; an empty accounting answer raises `RuntimeError`; the parent row's
state decides `success` (`self.success = True` only when `COMPLETED`,
never reset), a missing parent row raises `KeyError`; then every
configured command is folded through `slurmCmdStep`. -/
def slurmCheck (env : SlurmEnv) (st : SlurmSettings) (s : SlurmState) :
    SlurmState × CheckOutcome :=
  if env.squeueNonempty then (s, CheckOutcome.normal)
  else
    let s1 := { s with finished := true }
    if env.rows.isEmpty then (s1, CheckOutcome.runtimeError)
    else
      let s2 := { s1 with dataRunner := some env.rows }
      match lookupLast env.rows st.name with
      | none => (s2, CheckOutcome.keyError)
      | some pr =>
        let s3 := if pr.state == "COMPLETED" then { s2 with success := true } else s2
        (st.commands.foldl (slurmCmdStep env) s3, CheckOutcome.normal)

/-- The entries `check` appends for the configured commands, in declared
order: one per command that has an accounting row whose state is not
`COMPLETED`. -/
def failEntries (env : SlurmEnv) (cmds : List Command) : List SEntry :=
  cmds.filterMap (fun c =>
    match lookupLast env.rows c.name with
    | some row =>
      if row.state ≠ "COMPLETED" then some (slurmEntry c.name row.exitcode) else none
    | none => none)

/-- The `.out`/`.err` paths `check` adds to `outfiles`: those of failed
recorded commands, when they exist on disk. -/
def failPaths (env : SlurmEnv) (cmds : List Command) : List String :=
  cmds.flatMap (fun c =>
    match lookupLast env.rows c.name with
    | some row =>
      if row.state ≠ "COMPLETED" then
        (if env.fileExists (soutFn env c.name) then [soutFn env c.name] else []) ++
        (if env.fileExists (serrFn env c.name) then [serrFn env c.name] else [])
      else []
    | none => [])

lemma mem_setAdd_self (xs : List String) (x : String) : x ∈ setAdd xs x := by
  unfold setAdd; split_ifs with h
  · exact h
  · simp

lemma mem_setAdd_of_mem {a : String} {xs : List String} (x : String) (h : a ∈ xs) :
    a ∈ setAdd xs x := by
  unfold setAdd; split_ifs
  · exact h
  · simp [h]

lemma setAdd_of_mem {xs : List String} {x : String} (h : x ∈ xs) : setAdd xs x = xs := by
  unfold setAdd; exact if_pos h

lemma mem_foldl_setAdd_of_mem_init {a : String} :
    ∀ (A : List String) (xs : List String), a ∈ xs → a ∈ A.foldl setAdd xs := by
  intro A
  induction A with
  | nil => intro xs h; exact h
  | cons b B ih => intro xs h; exact ih _ (mem_setAdd_of_mem b h)

lemma mem_foldl_setAdd_of_mem {a : String} :
    ∀ (A : List String) (xs : List String), a ∈ A → a ∈ A.foldl setAdd xs := by
  intro A
  induction A with
  | nil => intro xs h; cases h
  | cons b B ih =>
    intro xs h
    rcases List.mem_cons.mp h with h | h
    · subst h; exact mem_foldl_setAdd_of_mem_init B _ (mem_setAdd_self xs a)
    · exact ih _ h

lemma foldl_setAdd_of_subset :
    ∀ (A : List String) (xs : List String), (∀ a ∈ A, a ∈ xs) → A.foldl setAdd xs = xs := by
  intro A
  induction A with
  | nil => intro xs _; rfl
  | cons b B ih =>
    intro xs h
    rw [List.foldl_cons, setAdd_of_mem (h b (by simp))]
    exact ih xs (fun a ha => h a (by simp [ha]))

/-- `slurmCmdStep` in closed form: it appends the command's failure
entries to the proper list, adds the command's existing failure log
files, and leaves everything else untouched. -/
lemma slurmCmdStep_eq (env : SlurmEnv) (s : SlurmState) (c : Command) :
    slurmCmdStep env s c =
      { s with
        errors := s.errors ++ (if s.success then [] else failEntries env [c]),
        warnings := s.warnings ++ (if s.success then failEntries env [c] else []),
        outfiles := (failPaths env [c]).foldl setAdd s.outfiles } := by
  obtain ⟨o, w, e, d, f, su⟩ := s
  unfold slurmCmdStep failEntries failPaths
  cases hl : lookupLast env.rows c.name with
  | none => split_ifs <;> simp [hl]
  | some row =>
    by_cases hst : row.state ≠ "COMPLETED"
    · by_cases hs : su <;>
        by_cases ho : env.fileExists (soutFn env c.name) <;>
        by_cases he : env.fileExists (serrFn env c.name) <;>
          simp [hl, hst, hs, ho, he]
    · split_ifs <;> simp_all [hl]

lemma failEntries_cons (env : SlurmEnv) (c : Command) (cs : List Command) :
    failEntries env (c :: cs) = failEntries env [c] ++ failEntries env cs := by
  unfold failEntries
  cases hl : lookupLast env.rows c.name with
  | none => simp [hl]
  | some row =>
    simp [hl, List.filterMap_cons]
    split_ifs <;> simp

lemma failPaths_cons (env : SlurmEnv) (c : Command) (cs : List Command) :
    failPaths env (c :: cs) = failPaths env [c] ++ failPaths env cs := by
  unfold failPaths
  simp

lemma foldl_slurmCmdStep_success (env : SlurmEnv) :
    ∀ (cmds : List Command) (s : SlurmState),
      (cmds.foldl (slurmCmdStep env) s).success = s.success := by
  intro cmds
  induction cmds with
  | nil => intro s; rfl
  | cons c cs ih =>
    intro s
    rw [List.foldl_cons, ih, slurmCmdStep_eq]

lemma foldl_slurmCmdStep_finished (env : SlurmEnv) :
    ∀ (cmds : List Command) (s : SlurmState),
      (cmds.foldl (slurmCmdStep env) s).finished = s.finished := by
  intro cmds
  induction cmds with
  | nil => intro s; rfl
  | cons c cs ih =>
    intro s
    rw [List.foldl_cons, ih, slurmCmdStep_eq]

lemma foldl_slurmCmdStep_dataRunner (env : SlurmEnv) :
    ∀ (cmds : List Command) (s : SlurmState),
      (cmds.foldl (slurmCmdStep env) s).dataRunner = s.dataRunner := by
  intro cmds
  induction cmds with
  | nil => intro s; rfl
  | cons c cs ih =>
    intro s
    rw [List.foldl_cons, ih, slurmCmdStep_eq]

lemma foldl_slurmCmdStep_errors (env : SlurmEnv) :
    ∀ (cmds : List Command) (s : SlurmState),
      (cmds.foldl (slurmCmdStep env) s).errors =
        s.errors ++ (if s.success then [] else failEntries env cmds) := by
  intro cmds
  induction cmds with
  | nil => intro s; simp [failEntries]
  | cons c cs ih =>
    intro s
    rw [List.foldl_cons, ih, slurmCmdStep_eq, failEntries_cons env c cs]
    by_cases hs : s.success <;> simp [hs]

lemma foldl_slurmCmdStep_warnings (env : SlurmEnv) :
    ∀ (cmds : List Command) (s : SlurmState),
      (cmds.foldl (slurmCmdStep env) s).warnings =
        s.warnings ++ (if s.success then failEntries env cmds else []) := by
  intro cmds
  induction cmds with
  | nil => intro s; simp [failEntries]
  | cons c cs ih =>
    intro s
    rw [List.foldl_cons, ih, slurmCmdStep_eq, failEntries_cons env c cs]
    by_cases hs : s.success <;> simp [hs]

lemma foldl_slurmCmdStep_outfiles (env : SlurmEnv) :
    ∀ (cmds : List Command) (s : SlurmState),
      (cmds.foldl (slurmCmdStep env) s).outfiles =
        (failPaths env cmds).foldl setAdd s.outfiles := by
  intro cmds
  induction cmds with
  | nil => intro s; simp [failPaths]
  | cons c cs ih =>
    intro s
    rw [List.foldl_cons, ih, slurmCmdStep_eq, failPaths_cons env c cs, List.foldl_append]

lemma mem_failPaths_out (env : SlurmEnv) {cmds : List Command} {c : Command} {row : SacctRow}
    (hc : c ∈ cmds) (hl : lookupLast env.rows c.name = some row)
    (hst : row.state ≠ "COMPLETED") (hx : env.fileExists (soutFn env c.name) = true) :
    soutFn env c.name ∈ failPaths env cmds := by
  unfold failPaths
  refine List.mem_flatMap.mpr ⟨c, hc, ?_⟩
  simp [hl, hst, hx]

lemma mem_failPaths_err (env : SlurmEnv) {cmds : List Command} {c : Command} {row : SacctRow}
    (hc : c ∈ cmds) (hl : lookupLast env.rows c.name = some row)
    (hst : row.state ≠ "COMPLETED") (hx : env.fileExists (serrFn env c.name) = true) :
    serrFn env c.name ∈ failPaths env cmds := by
  unfold failPaths
  refine List.mem_flatMap.mpr ⟨c, hc, ?_⟩
  simp [hl, hst, hx]

/-- `slurmCheck` on a job gone from the live queue with a recorded parent
row, in closed form: the command fold started from the state with
`finished` set, the accounting data stored, and `success` raised exactly
when the parent completed. -/
lemma slurmCheck_eq_foldl (env : SlurmEnv) (st : SlurmSettings) (s : SlurmState)
    (pr : SacctRow)
    (hq : env.squeueNonempty = false) (hr : env.rows ≠ [])
    (hp : lookupLast env.rows st.name = some pr) :
    slurmCheck env st s =
      (st.commands.foldl (slurmCmdStep env)
        (if pr.state == "COMPLETED" then
          { s with finished := true, dataRunner := some env.rows, success := true }
        else
          { s with finished := true, dataRunner := some env.rows }),
       CheckOutcome.normal) := by
  have hre : env.rows.isEmpty = false := by
    cases h : env.rows with
    | nil => exact absurd h hr
    | cons a l => rfl
  simp [slurmCheck, hq, hre, hp]

/-- C5: For every `SlurmRunner.check` call where the job name is absent
from the live queue, `finished` is set to true and the accounting records
determine the outcome: `success` is true exactly when the parent job's
recorded state is `COMPLETED`; for each configured command whose
accounting state is not `COMPLETED`, an entry is appended to
`data.errors` if the overall job failed, or to `data.warnings` if it
succeeded (`failEntries` lists exactly those entries, skipping commands
absent from the accounting records, which are silently ignored), and that
command's `.out`/`.err` files are added to `outfiles` when they exist on
disk.  If the job name is still present in the live queue, `check`
returns without changing anything. -/
theorem slurm_check_terminated (env : SlurmEnv) (st : SlurmSettings) (pr : SacctRow)
    (hq : env.squeueNonempty = false) (hr : env.rows ≠ [])
    (hp : lookupLast env.rows st.name = some pr) :
    (∀ s : SlurmState, slurmCheck { env with squeueNonempty := true } st s =
      (s, CheckOutcome.normal)) ∧
    (slurmCheck env st slurmInit).2 = CheckOutcome.normal ∧
    (slurmCheck env st slurmInit).1.finished = true ∧
    (slurmCheck env st slurmInit).1.success = (pr.state == "COMPLETED") ∧
    (slurmCheck env st slurmInit).1.errors =
      (if pr.state == "COMPLETED" then [] else failEntries env st.commands) ∧
    (slurmCheck env st slurmInit).1.warnings =
      (if pr.state == "COMPLETED" then failEntries env st.commands else []) ∧
    (∀ c ∈ st.commands, ∀ row : SacctRow, lookupLast env.rows c.name = some row →
      row.state ≠ "COMPLETED" →
      (env.fileExists (soutFn env c.name) = true →
        soutFn env c.name ∈ (slurmCheck env st slurmInit).1.outfiles) ∧
      (env.fileExists (serrFn env c.name) = true →
        serrFn env c.name ∈ (slurmCheck env st slurmInit).1.outfiles)) := by
  have hmain := slurmCheck_eq_foldl env st slurmInit pr hq hr hp
  refine ⟨?_, ?_, ?_, ?_, ?_, ?_, ?_⟩
  · intro s; simp [slurmCheck]
  · rw [hmain]
  · rw [hmain]
    by_cases hcp : pr.state == "COMPLETED" <;>
      simp [hcp, foldl_slurmCmdStep_finished]
  · rw [hmain]
    by_cases hcp : pr.state == "COMPLETED" <;>
      simp [hcp, foldl_slurmCmdStep_success, slurmInit]
  · rw [hmain]
    by_cases hcp : pr.state == "COMPLETED" <;>
      simp [hcp, foldl_slurmCmdStep_errors, slurmInit]
  · rw [hmain]
    by_cases hcp : pr.state == "COMPLETED" <;>
      simp [hcp, foldl_slurmCmdStep_warnings, slurmInit]
  · intro c hc row hrow hst
    constructor
    · intro hx
      rw [hmain]
      by_cases hcp : pr.state == "COMPLETED" <;>
        simp only [hcp, if_true, if_false, foldl_slurmCmdStep_outfiles] <;>
        exact mem_foldl_setAdd_of_mem _ _ (mem_failPaths_out env hc hrow hst hx)
    · intro hx
      rw [hmain]
      by_cases hcp : pr.state == "COMPLETED" <;>
        simp only [hcp, if_true, if_false, foldl_slurmCmdStep_outfiles] <;>
        exact mem_foldl_setAdd_of_mem _ _ (mem_failPaths_err env hc hrow hst hx)

/-- Concrete accounting scenario: parent job `job` FAILED, command `c1`
TIMEOUT (and its `.out` exists on disk), command `c2` absent from the
records. -/
def wSlurmEnv : SlurmEnv :=
  { taskDir := "wd",
    squeueNonempty := false,
    rows := [{ jobname := "job", state := "FAILED", exitcode := "1:0" },
             { jobname := "c1", state := "TIMEOUT", exitcode := "0:1" }],
    fileExists := fun p => p == "wd/c1.out" }

/-- Concrete Slurm task settings for the witness scenario. -/
def wSlurmSettings : SlurmSettings :=
  { name := "job",
    commands := [{ name := "c1", cmd := "/bin/c1", args := [], ignore_returncode := false },
                 { name := "c2", cmd := "/bin/c2", args := [], ignore_returncode := false }] }

/-- Witness for `slurm_check_terminated` at the concrete scenario:
the run is failed, `c1` is reported as an error with its existing `.out`
collected, `c2` (absent from accounting) is silently ignored. -/
theorem slurm_check_terminated_witness :
    (slurmCheck wSlurmEnv wSlurmSettings slurmInit).2 = CheckOutcome.normal ∧
    (slurmCheck wSlurmEnv wSlurmSettings slurmInit).1.finished = true ∧
    (slurmCheck wSlurmEnv wSlurmSettings slurmInit).1.success = false ∧
    (slurmCheck wSlurmEnv wSlurmSettings slurmInit).1.errors = [slurmEntry "c1" "0:1"] ∧
    (slurmCheck wSlurmEnv wSlurmSettings slurmInit).1.warnings = [] ∧
    soutFn wSlurmEnv "c1" ∈ (slurmCheck wSlurmEnv wSlurmSettings slurmInit).1.outfiles := by
  have h := slurm_check_terminated wSlurmEnv wSlurmSettings
    { jobname := "job", state := "FAILED", exitcode := "1:0" }
    (by decide) (by decide) (by decide)
  obtain ⟨-, h2, h3, h4, h5, h6, h7⟩ := h
  refine ⟨h2, h3, by simpa using h4, by simpa [failEntries, lookupLast] using h5,
    by simpa using h6, ?_⟩
  exact (h7 { name := "c1", cmd := "/bin/c1", args := [], ignore_returncode := false }
    (by decide) { jobname := "c1", state := "TIMEOUT", exitcode := "0:1" }
    (by decide) (by decide)).1 (by decide)

/-- Counterexample to C6 as stated: calling `SlurmRunner.check` a second
time on an already-finished job, with squeue and sacct unchanged,
re-appends the per-command failure entry — `data.errors` grows from one
entry to two duplicate entries. -/
theorem slurm_check_second_call_duplicates :
    (slurmCheck wSlurmEnv wSlurmSettings slurmInit).1.errors = [slurmEntry "c1" "0:1"] ∧
    (slurmCheck wSlurmEnv wSlurmSettings
        (slurmCheck wSlurmEnv wSlurmSettings slurmInit).1).1.errors =
      [slurmEntry "c1" "0:1", slurmEntry "c1" "0:1"] := by
  constructor <;> rfl

/-- C6 amended: invoking `check` a second time on an already-finished
Slurm job, with queue and accounting unchanged, yields the same `success`
value and the same `outfiles` set, but appends the per-command failure
entries to `data.errors`/`data.warnings` again (duplicates), instead of
leaving them unchanged. -/
theorem slurm_check_repeat (env : SlurmEnv) (st : SlurmSettings) (pr : SacctRow)
    (s : SlurmState)
    (hq : env.squeueNonempty = false) (hr : env.rows ≠ [])
    (hp : lookupLast env.rows st.name = some pr) :
    (slurmCheck env st (slurmCheck env st s).1).1.success =
      (slurmCheck env st s).1.success ∧
    (slurmCheck env st (slurmCheck env st s).1).1.finished = true ∧
    (slurmCheck env st (slurmCheck env st s).1).1.outfiles =
      (slurmCheck env st s).1.outfiles ∧
    (slurmCheck env st (slurmCheck env st s).1).1.errors =
      (slurmCheck env st s).1.errors ++
        (if (slurmCheck env st s).1.success then [] else failEntries env st.commands) ∧
    (slurmCheck env st (slurmCheck env st s).1).1.warnings =
      (slurmCheck env st s).1.warnings ++
        (if (slurmCheck env st s).1.success then failEntries env st.commands else []) := by
  have h1 := slurmCheck_eq_foldl env st s pr hq hr hp
  have h2 := slurmCheck_eq_foldl env st (slurmCheck env st s).1 pr hq hr hp
  by_cases hcp : pr.state == "COMPLETED"
  · rw [h2, h1]
    simp only [hcp, if_true]
    refine ⟨?_, ?_, ?_, ?_, ?_⟩
    · simp [foldl_slurmCmdStep_success]
    · simp [foldl_slurmCmdStep_finished]
    · simp only [foldl_slurmCmdStep_outfiles]
      exact foldl_setAdd_of_subset _ _
        (fun a ha => mem_foldl_setAdd_of_mem _ _ ha)
    · simp [foldl_slurmCmdStep_errors, foldl_slurmCmdStep_success]
    · simp [foldl_slurmCmdStep_warnings, foldl_slurmCmdStep_success]
  · rw [h2, h1]
    simp only [hcp, if_false]
    refine ⟨?_, ?_, ?_, ?_, ?_⟩
    · simp [foldl_slurmCmdStep_success]
    · simp [foldl_slurmCmdStep_finished]
    · simp only [foldl_slurmCmdStep_outfiles]
      exact foldl_setAdd_of_subset _ _
        (fun a ha => mem_foldl_setAdd_of_mem _ _ ha)
    · simp [foldl_slurmCmdStep_errors, foldl_slurmCmdStep_success]
    · simp [foldl_slurmCmdStep_warnings, foldl_slurmCmdStep_success]

/-- Witness for `slurm_check_repeat` at the concrete scenario. -/
theorem slurm_check_repeat_witness :
    (slurmCheck wSlurmEnv wSlurmSettings
        (slurmCheck wSlurmEnv wSlurmSettings slurmInit).1).1.success =
      (slurmCheck wSlurmEnv wSlurmSettings slurmInit).1.success ∧
    (slurmCheck wSlurmEnv wSlurmSettings
        (slurmCheck wSlurmEnv wSlurmSettings slurmInit).1).1.outfiles =
      (slurmCheck wSlurmEnv wSlurmSettings slurmInit).1.outfiles ∧
    (slurmCheck wSlurmEnv wSlurmSettings
        (slurmCheck wSlurmEnv wSlurmSettings slurmInit).1).1.errors =
      (slurmCheck wSlurmEnv wSlurmSettings slurmInit).1.errors ++
        failEntries wSlurmEnv wSlurmSettings.commands := by
  have h := slurm_check_repeat wSlurmEnv wSlurmSettings
    { jobname := "job", state := "FAILED", exitcode := "1:0" } slurmInit
    (by decide) (by decide) (by decide)
  exact ⟨h.1, h.2.2.1, by simpa using h.2.2.2.1⟩

/-! ## MPIRunner.__init__ (runners.py:284-298) -/

/-- A Python value appearing in a command's argument list after the MPI
rewrite: either an ordinary string, or the single un-flattened
`itertools.chain` iterator object produced by
`[chain.from_iterable(...)]` (runners.py:292-293).  The `chainObj`
constructor records the flag strings the iterator would yield. -/
inductive PyVal
  | str : String → PyVal
  | chainObj : List String → PyVal
deriving Repr, DecidableEq

/-- A command dict as manipulated by `MPIRunner.__init__`; the original
`args` entries are strings. -/
structure MpiCommand where
  name : String
  cmd : String
  args : List PyVal
deriving Repr, DecidableEq

/-- The flag strings the generator expression
`("--{}".format(arg), value) for arg, value in ... mpirun_args ... .items()`
yields once flattened: `--key` followed by its value, per item. -/
def renderMpirunFlags (pairs : List (String × String)) : List String :=
  pairs.flatMap (fun p => ["--" ++ p.1, p.2])

/-- `mpirun_args = [chain.from_iterable(...)]` (runners.py:292-293): a
Python list literal whose single element is the chain iterator object —
NOT the flattened flag list. -/
def mpirun_args (pairs : List (String × String)) : List PyVal :=
  [PyVal.chainObj (renderMpirunFlags pairs)]

/-- The per-command body of `MPIRunner.__init__`'s loop
(runners.py:295-298): `command['args'] = mpirun_args + [command['cmd']] +
command['args']; command['cmd'] = "mpirun"`. -/
def mpiRewrite (pairs : List (String × String)) (c : MpiCommand) : MpiCommand :=
  { c with args := mpirun_args pairs ++ [PyVal.str c.cmd] ++ c.args, cmd := "mpirun" }

/-- `MPIRunner.__init__` rewrites every configured command. -/
def mpiRewriteAll (pairs : List (String × String)) (cmds : List MpiCommand) : List MpiCommand :=
  cmds.map (mpiRewrite pairs)

/-- The rewrite the specification describes (spec §4.5): executable
becomes the MPI launcher and the argument list is the rendered
`--key value` flags, then the original executable, then the original
arguments. -/
def mpiRewriteSpec (pairs : List (String × String)) (c : MpiCommand) : MpiCommand :=
  { c with args := (renderMpirunFlags pairs).map PyVal.str ++ [PyVal.str c.cmd] ++ c.args,
           cmd := "mpirun" }

/-- Concrete machine `mpirun_args` mapping for the failing input. -/
def wMpiPairs : List (String × String) := [("np", "4")]

/-- Concrete command for the failing input. -/
def wMpiCmd : MpiCommand := { name := "calc", cmd := "/bin/prog", args := [PyVal.str "-x"] }

/-- C7, evaluated at the failing input: `MPIRunner.__init__` does not
produce the rewrite the claim describes.  Because `mpirun_args` is the
list literal `[chain.from_iterable(...)]` rather than
`list(chain.from_iterable(...))`, a rewritten command's argument list
starts with the single un-flattened chain-iterator object instead of the
rendered `--key value` flags; stringified later by `map(str, ...)`, that
object becomes a meaningless `<itertools.chain object ...>` argument to
`mpirun`. -/
theorem mpi_rewrite_unflattened_bug :
    (mpiRewrite wMpiPairs wMpiCmd).args =
      [PyVal.chainObj ["--np", "4"], PyVal.str "/bin/prog", PyVal.str "-x"] ∧
    (mpiRewriteSpec wMpiPairs wMpiCmd).args =
      [PyVal.str "--np", PyVal.str "4", PyVal.str "/bin/prog", PyVal.str "-x"] ∧
    (mpiRewrite wMpiPairs wMpiCmd).cmd = "mpirun" ∧
    mpiRewriteAll wMpiPairs [wMpiCmd] ≠ [mpiRewriteSpec wMpiPairs wMpiCmd] := by
  refine ⟨rfl, rfl, rfl, ?_⟩
  decide

/-! ## task_iterator (fdaemon.py:208-229) -/

/-- A task as the daemon sees it: its identifier, status, the slice of
`settings` the daemon consults, and its declared input files (by name). -/
structure Task where
  id : String
  status : String
  runner : Option String
  output_artifacts : List String
  infiles : List String
deriving Repr, DecidableEq

/-- One iteration of `task_iterator`'s `while True:` body
(fdaemon.py:210-229): yield every task of the assigned
`pending,running` query in service order, then at most one task of the
`limit=1, status=new` query. -/
def task_iterator_cycle (assigned : List Task) (newTasks : List Task) : List Task :=
  assigned ++ newTasks.take 1

/-- The tasks yielded during polling cycle `n` of a single
`task_iterator(...)` invocation, given the service's per-cycle query
results.  The generator never terminates on its own (`while True` with no
`break`/`return`), so every cycle index yields. -/
def task_iterator_yields (fetch : Nat → List Task × List Task) (n : Nat) : List Task :=
  task_iterator_cycle (fetch n).1 (fetch n).2

/-- All tasks yielded during the first `n` polling cycles of one
invocation. -/
def task_iterator_yieldsUpTo (fetch : Nat → List Task × List Task) (n : Nat) : List Task :=
  (List.range n).flatMap (task_iterator_yields fetch)

/-- A concrete task used to exercise the iterator. -/
def wTaskNew : Task :=
  { id := "t1", status := "new", runner := some "direct", output_artifacts := [], infiles := [] }

/-- A service oracle that always answers: no assigned tasks, one new
task. -/
def wFetchConst : Nat → List Task × List Task := fun _ => ([], [wTaskNew])

/-- Counterexample to C9 as stated: the sequence produced by one
`task_iterator` invocation is not finite and the new-status task is not
last overall — after cycle 0 has already yielded its (sole) `new` task,
the same single invocation yields again in cycle 1 (the generator body is
`while True` containing the nap; the daemon calls the iterator exactly
once, not once per polling cycle). -/
theorem task_iterator_not_finite :
    task_iterator_yieldsUpTo wFetchConst 2 = [wTaskNew, wTaskNew] ∧
    task_iterator_yields wFetchConst 1 ≠ [] := by
  constructor
  · rfl
  · decide

/-- C9 amended: each polling cycle within the single `task_iterator`
invocation yields the tasks of the assigned pending/running query in the
order returned by the service, followed last by at most one task of the
`new` query; the iterator is an infinite generator (every cycle index
yields), invoked once by the daemon loop. -/
theorem task_iterator_cycle_shape (fetch : Nat → List Task × List Task) (n : Nat)
    (t : Task) (rest : List Task) (hnew : (fetch n).2 = t :: rest) :
    task_iterator_yields fetch n = (fetch n).1 ++ [t] ∧
    (task_iterator_yields fetch n).take (fetch n).1.length = (fetch n).1 ∧
    (task_iterator_yields fetch n).drop (fetch n).1.length = [t] ∧
    task_iterator_yieldsUpTo fetch (n + 1) =
      task_iterator_yieldsUpTo fetch n ++ task_iterator_yields fetch n := by
  refine ⟨?_, ?_, ?_, ?_⟩
  · simp [task_iterator_yields, task_iterator_cycle, hnew]
  · simp [task_iterator_yields, task_iterator_cycle, List.take_append]
  · simp [task_iterator_yields, task_iterator_cycle, List.drop_append, hnew]
  · simp [task_iterator_yieldsUpTo, List.range_succ]

/-- Witness for `task_iterator_cycle_shape` at the constant oracle. -/
theorem task_iterator_cycle_shape_witness :
    task_iterator_yields wFetchConst 0 = (wFetchConst 0).1 ++ [wTaskNew] ∧
    (task_iterator_yields wFetchConst 0).take (wFetchConst 0).1.length = (wFetchConst 0).1 ∧
    (task_iterator_yields wFetchConst 0).drop (wFetchConst 0).1.length = [wTaskNew] ∧
    task_iterator_yieldsUpTo wFetchConst 1 =
      task_iterator_yieldsUpTo wFetchConst 0 ++ task_iterator_yields wFetchConst 0 :=
  task_iterator_cycle_shape wFetchConst 0 wTaskNew [] rfl

/-! ## The per-task body of `main` (fdaemon.py:262-375)

The runner object is modelled by its observable result: the daemon's
dispatch code only inspects the exception class a `run`/`check` call
raised (if any) and the runner's `finished`/`success`/`outfiles`/`data`
attributes afterwards. -/

/-- `runner.data`: the accumulated warnings and errors payload. -/
structure RunnerData where
  warnings : List DataEntry
  errors : List DataEntry
deriving Repr, DecidableEq

/-- The exception classes distinguished by `main`'s dispatch
(fdaemon.py:327-337). -/
inductive RunExc
  | httpError : RunExc
  | clientError : RunExc
  | genericExc : RunExc
deriving Repr, DecidableEq

/-- Observable result of one `runner.run()` / `runner.check()` call:
which exception (if any) left it, and the runner attributes the daemon
reads afterwards. -/
structure RunnerResult where
  outcome : Option RunExc
  finished : Bool
  success : Bool
  outfiles : List String
  data : RunnerData
deriving Repr, DecidableEq

/-- A runner result with nothing recorded. -/
def idleResult : RunnerResult :=
  { outcome := none, finished := false, success := false, outfiles := [],
    data := { warnings := [], errors := [] } }

/-- External-world oracle for one iteration of `main`'s task loop:
the HTTP responses, the local filesystem, and the runner's behaviour. -/
structure StepEnv where
  hostname : String
  dataDir : String
  claimResp : Option Task
  fetchResp : Option Task
  dirExists : Bool
  remoteContent : String → String
  downloadOk : String → Bool
  runResult : RunnerResult
  checkResult : RunnerResult
  globMatch : String → List String
  sizeOf : String → Option Nat
  uploadOk : String → Bool
  patchOk : Bool

/-- `task_dir = path.join(data_dir, task['id'])` (fdaemon.py:263). -/
def taskDirOf (env : StepEnv) (t : Task) : String :=
  env.dataDir ++ "/" ++ t.id

/-- Whether the exception (if any) escaping the per-task body propagates
out of `main` and kills the daemon process (`fatal`), or control reaches
the next task (`nextTask`, also via `continue`). -/
inductive StepOutcome
  | nextTask : StepOutcome
  | fatal : StepOutcome
deriving Repr, DecidableEq

/-- Observable effects of processing one task. -/
structure StepResult where
  outcome : StepOutcome
  claimRequest : Option (String × String)
  claimed : Bool
  dirRemoved : Bool
  dirCreated : Bool
  downloads : List (String × String)
  invoked : Option Bool
  globWarnings : List DataEntry
  uploads : List String
  patch : Option (String × RunnerData)
deriving Repr, DecidableEq

/-- The all-empty step record, outcome still open. -/
def stepInit : StepResult :=
  { outcome := StepOutcome.nextTask, claimRequest := none, claimed := false,
    dirRemoved := false, dirCreated := false, downloads := [], invoked := none,
    globWarnings := [], uploads := [], patch := none }

/-- The staging download loop (fdaemon.py:313-318): each infile is
fetched (`raise_for_status` — a failure propagates uncaught), then its
bytes are written into the task directory.  Returns the files written
(name, content) and whether all downloads succeeded. -/
def downloadPhase (env : StepEnv) : List String → List (String × String) × Bool
  | [] => ([], true)
  | n :: ns =>
    if env.downloadOk n then
      ((n, env.remoteContent n) :: (downloadPhase env ns).1, (downloadPhase env ns).2)
    else ([], false)

/-- The glob warning entry (fdaemon.py:350-354). -/
def globWarnEntry (a : String) : DataEntry :=
  { tag := "output_artifacts", entry := a, msg := "no files found", returncode := none }

/-- The `for a_name in task['settings']['output_artifacts']` loop
(fdaemon.py:346-360): per pattern, the glob expansion is appended to the
upload list, or a warning entry is recorded when it matches nothing. -/
def globPhase (env : StepEnv) (taskDir : String) : List String → List DataEntry × List String
  | [] => ([], [])
  | a :: rest =>
    if (env.globMatch (taskDir ++ "/" ++ a)).isEmpty then
      (globWarnEntry a :: (globPhase env taskDir rest).1, (globPhase env taskDir rest).2)
    else
      ((globPhase env taskDir rest).1,
       env.globMatch (taskDir ++ "/" ++ a) ++ (globPhase env taskDir rest).2)

/-- `[f for f in runner.outfiles if path.getsize(f)]` (fdaemon.py:363):
`getsize` on a missing file raises `OSError` (modelled as `none`), which
aborts the whole comprehension; otherwise the files of non-zero size are
kept, in order. -/
def sizedOutfiles (env : StepEnv) : List String → Option (List String)
  | [] => some []
  | f :: fs =>
    match env.sizeOf f with
    | none => none
    | some sz =>
      match sizedOutfiles env fs with
      | none => none
      | some rest => some (if sz ≠ 0 then f :: rest else rest)

/-- The upload loop (fdaemon.py:365-370): each file is POSTed, then
`raise_for_status` may abort.  Returns the files POSTed and whether all
uploads succeeded. -/
def uploadPhase (env : StepEnv) : List String → List String × Bool
  | [] => ([], true)
  | f :: fs =>
    if env.uploadOk f then
      (f :: (uploadPhase env fs).1, (uploadPhase env fs).2)
    else ([f], false)

/-- The finalization block (fdaemon.py:342-375), entered when
`runner.finished` is true: glob the declared output artifacts (recording
warnings for empty matches), append the non-empty runner outfiles
(`getsize` on a missing outfile raises, uncaught — fatal before any
upload), upload everything, then patch the task to `done`/`error` with
the runner's data (glob warnings included). -/
def finalize (env : StepEnv) (t : Task) (r : RunnerResult) (base : StepResult) : StepResult :=
  let g := globPhase env (taskDirOf env t) t.output_artifacts
  match sizedOutfiles env r.outfiles with
  | none => { base with outcome := StepOutcome.fatal, globWarnings := g.1 }
  | some sized =>
    let up := uploadPhase env (g.2 ++ sized)
    if up.2 then
      if env.patchOk then
        { base with
          outcome := StepOutcome.nextTask,
          globWarnings := g.1,
          uploads := up.1,
          patch := some ((if r.success then "done" else "error"),
            { warnings := r.data.warnings ++ g.1, errors := r.data.errors }) }
      else
        { base with outcome := StepOutcome.fatal, globWarnings := g.1, uploads := up.1 }
    else { base with outcome := StepOutcome.fatal, globWarnings := g.1, uploads := up.1 }

/-- The runner call `main` makes for a task (fdaemon.py:321-325):
`check()` when the status is `running`, else `run()`. -/
def invokedResult (env : StepEnv) (t : Task) : RunnerResult :=
  if t.status = "running" then env.checkResult else env.runResult

/-- The dispatch and exception handling around `run`/`check`
(fdaemon.py:321-342): an `HTTPError` or `ClientError` aborts this task
only (`continue` — finalization skipped, remote state untouched); any
other exception is logged and swallowed; then finalization runs exactly
when `runner.finished` is true. -/
def dispatch (env : StepEnv) (t : Task) (base : StepResult) : StepResult :=
  let r := invokedResult env t
  let base1 := { base with invoked := some (t.status == "running") }
  match r.outcome with
  | some RunExc.httpError => base1
  | some RunExc.clientError => base1
  | some RunExc.genericExc => if r.finished then finalize env t r base1 else base1
  | none => if r.finished then finalize env t r base1 else base1

/-- The body of `main`'s loop after the acquire/fetch phase
(fdaemon.py:285-375): runner lookup (an unknown runner name raises
`NotImplementedError`, uncaught — fatal), staging for `pending` tasks
(directory rebuild plus downloads, download failures propagate uncaught),
then dispatch. -/
def stepAfterAcquire (env : StepEnv) (t : Task) (base : StepResult) : StepResult :=
  if t.runner = some "direct" then
    if t.status = "pending" then
      let dl := downloadPhase env t.infiles
      let base1 := { base with dirRemoved := env.dirExists, dirCreated := true,
                               downloads := dl.1 }
      if dl.2 then dispatch env t base1
      else { base1 with outcome := StepOutcome.fatal }
    else dispatch env t base
  else { base with outcome := StepOutcome.fatal }

/-- One iteration of `for task in task_iterator(...)` (fdaemon.py:262-375).
A `new` task is claimed by `PATCH {status: pending, machine: hostname}`
with no surrounding `try` — `raise_for_status` on a failed claim
propagates out of `main` (fatal); otherwise the body continues with the
response task.  Any other status is re-fetched (`GET`, also unguarded). -/
def stepTask (env : StepEnv) (t0 : Task) : StepResult :=
  if t0.status = "new" then
    match env.claimResp with
    | none =>
      { stepInit with outcome := StepOutcome.fatal,
                      claimRequest := some ("pending", env.hostname) }
    | some t =>
      stepAfterAcquire env t
        { stepInit with claimRequest := some ("pending", env.hostname), claimed := true }
  else
    match env.fetchResp with
    | none => { stepInit with outcome := StepOutcome.fatal }
    | some t => stepAfterAcquire env t stepInit

lemma downloadPhase_all (env : StepEnv) :
    ∀ ns : List String, (downloadPhase env ns).2 = true →
      (downloadPhase env ns).1 = ns.map (fun n => (n, env.remoteContent n)) := by
  intro ns
  induction ns with
  | nil => intro _; rfl
  | cons n ns ih =>
    intro h
    by_cases hd : env.downloadOk n
    · simp only [downloadPhase, hd, if_true, List.map_cons] at h ⊢
      exact congrArg _ (ih h)
    · simp [downloadPhase, hd] at h

lemma uploadPhase_all (env : StepEnv) :
    ∀ fs : List String, (uploadPhase env fs).2 = true → (uploadPhase env fs).1 = fs := by
  intro fs
  induction fs with
  | nil => intro _; rfl
  | cons f fs ih =>
    intro h
    by_cases hu : env.uploadOk f
    · simp only [uploadPhase, hu, if_true] at h ⊢
      exact congrArg _ (ih h)
    · simp [uploadPhase, hu] at h

lemma sizedOutfiles_none_of_missing (env : StepEnv) {f : String} (hmiss : env.sizeOf f = none) :
    ∀ fs : List String, f ∈ fs → sizedOutfiles env fs = none := by
  intro fs
  induction fs with
  | nil => intro h; cases h
  | cons g gs ih =>
    intro h
    rcases List.mem_cons.mp h with h | h
    · subst h; simp [sizedOutfiles, hmiss]
    · unfold sizedOutfiles
      rw [ih h]
      cases env.sizeOf g <;> rfl

lemma sizedOutfiles_not_mem_zero (env : StepEnv) {f : String} (h0 : env.sizeOf f = some 0) :
    ∀ (fs : List String) (L : List String), sizedOutfiles env fs = some L → f ∉ L := by
  intro fs
  induction fs with
  | nil =>
    intro L hL
    simp only [sizedOutfiles, Option.some_inj] at hL
    simp [← hL]
  | cons g gs ih =>
    intro L hL
    unfold sizedOutfiles at hL
    cases hg : env.sizeOf g with
    | none => rw [hg] at hL; cases hL
    | some sz =>
      rw [hg] at hL
      cases hrec : sizedOutfiles env gs with
      | none => rw [hrec] at hL; cases hL
      | some L' =>
        rw [hrec] at hL
        simp only [Option.some_inj] at hL
        by_cases hfg : f = g
        · subst hfg
          rw [h0] at hg
          have : sz = 0 := by injection hg.symm
          subst this
          simp at hL
          rw [← hL]
          exact ih L' hrec
        · intro hmem
          rw [← hL] at hmem
          by_cases hz : sz ≠ 0
          · simp [hz] at hmem
            rcases hmem with h | h
            · exact hfg h
            · exact ih L' hrec h
          · simp [hz] at hmem
            exact ih L' hrec hmem

lemma sizedOutfiles_mem_nonzero (env : StepEnv) {f : String} {sz : Nat}
    (hsz : env.sizeOf f = some sz) (hnz : sz ≠ 0) :
    ∀ (fs : List String) (L : List String), sizedOutfiles env fs = some L → f ∈ fs → f ∈ L := by
  intro fs
  induction fs with
  | nil => intro L _ h; cases h
  | cons g gs ih =>
    intro L hL hmem
    unfold sizedOutfiles at hL
    cases hg : env.sizeOf g with
    | none => rw [hg] at hL; cases hL
    | some szg =>
      rw [hg] at hL
      cases hrec : sizedOutfiles env gs with
      | none => rw [hrec] at hL; cases hL
      | some L' =>
        rw [hrec] at hL
        simp only [Option.some_inj] at hL
        rcases List.mem_cons.mp hmem with h | h
        · subst h
          rw [hsz] at hg
          have hszg : sz = szg := by injection hg
          subst hszg
          rw [← hL]
          simp [hnz]
        · have hf' := ih L' hrec h
          rw [← hL]
          by_cases hz : szg ≠ 0 <;> simp [hz, hf']

lemma finalize_preserves (env : StepEnv) (t : Task) (r : RunnerResult) (base : StepResult) :
    (finalize env t r base).claimRequest = base.claimRequest ∧
    (finalize env t r base).claimed = base.claimed ∧
    (finalize env t r base).dirRemoved = base.dirRemoved ∧
    (finalize env t r base).dirCreated = base.dirCreated ∧
    (finalize env t r base).downloads = base.downloads ∧
    (finalize env t r base).invoked = base.invoked := by
  unfold finalize
  cases sizedOutfiles env r.outfiles with
  | none => simp
  | some sized =>
    simp only []
    split_ifs <;> simp

lemma dispatch_preserves (env : StepEnv) (t : Task) (base : StepResult) :
    (dispatch env t base).claimRequest = base.claimRequest ∧
    (dispatch env t base).claimed = base.claimed ∧
    (dispatch env t base).dirRemoved = base.dirRemoved ∧
    (dispatch env t base).dirCreated = base.dirCreated ∧
    (dispatch env t base).downloads = base.downloads ∧
    (dispatch env t base).invoked = some (t.status == "running") := by
  cases ho : (invokedResult env t).outcome with
  | none =>
    simp only [dispatch, ho]
    split_ifs with h
    · simpa using finalize_preserves env t (invokedResult env t) _
    · simp
  | some e =>
    cases e with
    | httpError => simp [dispatch, ho]
    | clientError => simp [dispatch, ho]
    | genericExc =>
      simp only [dispatch, ho]
      split_ifs with h
      · simpa using finalize_preserves env t (invokedResult env t) _
      · simp

lemma stepTask_fetch (env : StepEnv) (t0 t : Task) (hne : t0.status ≠ "new")
    (hf : env.fetchResp = some t) :
    stepTask env t0 = stepAfterAcquire env t stepInit := by
  simp [stepTask, hne, hf]

lemma stepAfterAcquire_nonpending (env : StepEnv) (t : Task) (base : StepResult)
    (hr : t.runner = some "direct") (hst : t.status ≠ "pending") :
    stepAfterAcquire env t base = dispatch env t base := by
  simp [stepAfterAcquire, hr, hst]

lemma stepAfterAcquire_pending (env : StepEnv) (t : Task) (base : StepResult)
    (hr : t.runner = some "direct") (hst : t.status = "pending")
    (hdl : (downloadPhase env t.infiles).2 = true) :
    stepAfterAcquire env t base =
      dispatch env t
        { base with dirRemoved := env.dirExists, dirCreated := true,
                    downloads := (downloadPhase env t.infiles).1 } := by
  simp [stepAfterAcquire, hr, hst, hdl]

lemma dispatch_skip (env : StepEnv) (t : Task) (base : StepResult)
    (ho : (invokedResult env t).outcome = some RunExc.httpError ∨
          (invokedResult env t).outcome = some RunExc.clientError) :
    dispatch env t base = { base with invoked := some (t.status == "running") } := by
  rcases ho with h | h <;> simp only [dispatch, h]

lemma dispatch_finalize (env : StepEnv) (t : Task) (base : StepResult)
    (ho : (invokedResult env t).outcome = none ∨
          (invokedResult env t).outcome = some RunExc.genericExc)
    (hfin : (invokedResult env t).finished = true) :
    dispatch env t base =
      finalize env t (invokedResult env t)
        { base with invoked := some (t.status == "running") } := by
  rcases ho with h | h <;> simp only [dispatch, h, hfin, if_true]

lemma dispatch_notFinished (env : StepEnv) (t : Task) (base : StepResult)
    (ho : (invokedResult env t).outcome = none ∨
          (invokedResult env t).outcome = some RunExc.genericExc)
    (hfin : (invokedResult env t).finished = false) :
    dispatch env t base = { base with invoked := some (t.status == "running") } := by
  rcases ho with h | h <;> simp only [dispatch, h, hfin, Bool.false_eq_true, if_false]

lemma finalize_ok (env : StepEnv) (t : Task) (r : RunnerResult) (base : StepResult)
    (sized : List String)
    (hsz : sizedOutfiles env r.outfiles = some sized)
    (hup : (uploadPhase env
      ((globPhase env (taskDirOf env t) t.output_artifacts).2 ++ sized)).2 = true)
    (hpk : env.patchOk = true) :
    finalize env t r base =
      { base with
        outcome := StepOutcome.nextTask,
        globWarnings := (globPhase env (taskDirOf env t) t.output_artifacts).1,
        uploads := (globPhase env (taskDirOf env t) t.output_artifacts).2 ++ sized,
        patch := some ((if r.success then "done" else "error"),
          { warnings := r.data.warnings ++ (globPhase env (taskDirOf env t) t.output_artifacts).1,
            errors := r.data.errors }) } := by
  unfold finalize
  rw [hsz]
  simp only [hup, if_true, hpk]
  rw [uploadPhase_all env _ hup]

lemma finalize_missing (env : StepEnv) (t : Task) (r : RunnerResult) (base : StepResult)
    (f : String) (hmem : f ∈ r.outfiles) (hmiss : env.sizeOf f = none) :
    finalize env t r base =
      { base with outcome := StepOutcome.fatal,
                  globWarnings := (globPhase env (taskDirOf env t) t.output_artifacts).1 } := by
  unfold finalize
  rw [sizedOutfiles_none_of_missing env hmiss _ hmem]

lemma stepAfterAcquire_preserves (env : StepEnv) (t : Task) (base : StepResult) :
    (stepAfterAcquire env t base).claimRequest = base.claimRequest ∧
    (stepAfterAcquire env t base).claimed = base.claimed := by
  by_cases h1 : t.runner = some "direct"
  · by_cases h2 : t.status = "pending"
    · by_cases h3 : (downloadPhase env t.infiles).2 = true
      · rw [stepAfterAcquire_pending env t base h1 h2 h3]
        have h := dispatch_preserves env t
          { base with dirRemoved := env.dirExists, dirCreated := true,
                      downloads := (downloadPhase env t.infiles).1 }
        exact ⟨h.1, h.2.1⟩
      · have h3' : (downloadPhase env t.infiles).2 = false := by simpa using h3
        simp [stepAfterAcquire, h1, h2, h3']
    · rw [stepAfterAcquire_nonpending env t base h1 h2]
      have h := dispatch_preserves env t base
      exact ⟨h.1, h.2.1⟩
  · simp [stepAfterAcquire, h1]

/-- C2 amended: for every task fetched with status `new`, the daemon
attempts the claim by patching `status=pending, machine=<hostname>`; when
the update fails with an HTTP error the exception propagates uncaught out
of the task loop and is fatal to the daemon process — the task is NOT
silently skipped (there is no `try` around the claim).  When the update
succeeds the daemon continues with the claimed response task. -/
theorem step_new_claim (env : StepEnv) (t0 : Task) (h : t0.status = "new") :
    (env.claimResp = none →
      (stepTask env t0).outcome = StepOutcome.fatal ∧
      (stepTask env t0).claimRequest = some ("pending", env.hostname) ∧
      (stepTask env t0).invoked = none ∧
      (stepTask env t0).patch = none ∧
      (stepTask env t0).uploads = []) ∧
    (∀ t : Task, env.claimResp = some t →
      (stepTask env t0).claimRequest = some ("pending", env.hostname) ∧
      (stepTask env t0).claimed = true) := by
  constructor
  · intro hc
    simp [stepTask, h, hc, stepInit]
  · intro t hc
    have he : stepTask env t0 =
        stepAfterAcquire env t
          { stepInit with claimRequest := some ("pending", env.hostname), claimed := true } := by
      simp [stepTask, h, hc]
    rw [he]
    have hp := stepAfterAcquire_preserves env t
      { stepInit with claimRequest := some ("pending", env.hostname), claimed := true }
    exact ⟨hp.1.trans rfl, hp.2.trans rfl⟩

/-- A benign oracle: no task responses, everything on disk present and
non-empty, every remote call succeeding. -/
def wStepEnvBase : StepEnv :=
  { hostname := "host1", dataDir := "dd", claimResp := none, fetchResp := none,
    dirExists := false, remoteContent := fun _ => "data", downloadOk := fun _ => true,
    runResult := idleResult, checkResult := idleResult, globMatch := fun _ => [],
    sizeOf := fun _ => some 1, uploadOk := fun _ => true, patchOk := true }

/-- Counterexample to C2 as stated: with the claim `PATCH` answering an
HTTP error (`raise_for_status` raises), processing the `new` task is
fatal to the daemon — it is not skipped silently. -/
theorem step_claim_http_error_fatal :
    wTaskNew.status = "new" ∧
    wStepEnvBase.claimResp = none ∧
    (stepTask wStepEnvBase wTaskNew).outcome = StepOutcome.fatal := by
  exact ⟨rfl, rfl, rfl⟩

/-- A full `pending` task with one declared input file. -/
def wTaskPending : Task :=
  { id := "t3", status := "pending", runner := some "direct",
    output_artifacts := [], infiles := ["geom.xyz"] }

/-- A full `running` task. -/
def wTaskRunning : Task :=
  { id := "t4", status := "running", runner := some "direct",
    output_artifacts := [], infiles := ["geom.xyz"] }

/-- The benign oracle with the claim answering a `pending` task. -/
def wStepEnvClaimOk : StepEnv := { wStepEnvBase with claimResp := some wTaskPending }

/-- Witness for `step_new_claim`, in both the failing-claim and the
successful-claim scenario. -/
theorem step_new_claim_witness :
    ((stepTask wStepEnvBase wTaskNew).outcome = StepOutcome.fatal ∧
     (stepTask wStepEnvBase wTaskNew).claimRequest = some ("pending", wStepEnvBase.hostname) ∧
     (stepTask wStepEnvBase wTaskNew).invoked = none ∧
     (stepTask wStepEnvBase wTaskNew).patch = none ∧
     (stepTask wStepEnvBase wTaskNew).uploads = []) ∧
    ((stepTask wStepEnvClaimOk wTaskNew).claimRequest =
      some ("pending", wStepEnvClaimOk.hostname) ∧
     (stepTask wStepEnvClaimOk wTaskNew).claimed = true) :=
  ⟨(step_new_claim wStepEnvBase wTaskNew rfl).1 rfl,
   (step_new_claim wStepEnvClaimOk wTaskNew rfl).2 wTaskPending rfl⟩

/-- C4: a task processed in status `pending` (including a freshly claimed
`new` task, whose claim response is `pending`) has its working directory
destroyed if it pre-existed and recreated, and exactly the declared
infiles are downloaded into it, byte-identical to the remote content, in
declared order; a task processed in status `running` is not re-staged —
no deletion, no creation, no downloads — and only `check` is invoked. -/
theorem step_staging (env : StepEnv) (t : Task)
    (hf : env.fetchResp = some t) (hr : t.runner = some "direct") :
    (t.status = "pending" → (downloadPhase env t.infiles).2 = true →
      (stepTask env t).dirRemoved = env.dirExists ∧
      (stepTask env t).dirCreated = true ∧
      (stepTask env t).downloads = t.infiles.map (fun n => (n, env.remoteContent n)) ∧
      (stepTask env t).invoked = some false) ∧
    (t.status = "running" →
      (stepTask env t).dirRemoved = false ∧
      (stepTask env t).dirCreated = false ∧
      (stepTask env t).downloads = [] ∧
      (stepTask env t).invoked = some true) := by
  constructor
  · intro hst hdl
    have hne : t.status ≠ "new" := by simp [hst]
    rw [stepTask_fetch env t t hne hf, stepAfterAcquire_pending env t stepInit hr hst hdl]
    have hp := dispatch_preserves env t
      { stepInit with dirRemoved := env.dirExists, dirCreated := true,
                      downloads := (downloadPhase env t.infiles).1 }
    refine ⟨hp.2.2.1.trans rfl, hp.2.2.2.1.trans rfl, ?_, ?_⟩
    · rw [hp.2.2.2.2.1]
      exact downloadPhase_all env t.infiles hdl
    · rw [hp.2.2.2.2.2, hst]
      rfl
  · intro hst
    have hne : t.status ≠ "new" := by simp [hst]
    have hnp : t.status ≠ "pending" := by simp [hst]
    rw [stepTask_fetch env t t hne hf, stepAfterAcquire_nonpending env t stepInit hr hnp]
    have hp := dispatch_preserves env t stepInit
    refine ⟨hp.2.2.1.trans rfl, hp.2.2.2.1.trans rfl, hp.2.2.2.2.1.trans rfl, ?_⟩
    rw [hp.2.2.2.2.2, hst]
    rfl

/-- The benign oracle serving the `pending` task. -/
def wStepEnvPend : StepEnv := { wStepEnvBase with fetchResp := some wTaskPending, dirExists := true }

/-- The benign oracle serving the `running` task. -/
def wStepEnvRun : StepEnv := { wStepEnvBase with fetchResp := some wTaskRunning }

/-- Witness for `step_staging` at a concrete pending and a concrete
running task. -/
theorem step_staging_witness :
    ((stepTask wStepEnvPend wTaskPending).dirRemoved = wStepEnvPend.dirExists ∧
     (stepTask wStepEnvPend wTaskPending).dirCreated = true ∧
     (stepTask wStepEnvPend wTaskPending).downloads =
       wTaskPending.infiles.map (fun n => (n, wStepEnvPend.remoteContent n)) ∧
     (stepTask wStepEnvPend wTaskPending).invoked = some false) ∧
    ((stepTask wStepEnvRun wTaskRunning).dirRemoved = false ∧
     (stepTask wStepEnvRun wTaskRunning).dirCreated = false ∧
     (stepTask wStepEnvRun wTaskRunning).downloads = [] ∧
     (stepTask wStepEnvRun wTaskRunning).invoked = some true) :=
  ⟨(step_staging wStepEnvPend wTaskPending rfl rfl).1 rfl (by decide),
   (step_staging wStepEnvRun wTaskRunning rfl rfl).2 rfl⟩

/-- C3: a `run`/`check` exception that is neither an HTTP error nor a
`ClientError` is logged and swallowed: the daemon does not abort, and
when the runner's `finished` flag is true, finalization still runs with
the partial runner state and patches the remote task to `done` if
`success` else `error`, attaching the runner's full data payload
(warnings — including the glob warnings appended during finalization —
and errors).  An HTTP error or `ClientError` aborts only that task's
processing: finalization is skipped, nothing is uploaded, no status patch
is sent, and the daemon continues with the next task. -/
theorem step_runcheck_exception_dispatch (env : StepEnv) (t : Task) (sized : List String)
    (hf : env.fetchResp = some t)
    (hr : t.runner = some "direct")
    (hstat : t.status = "running" ∨ t.status = "pending")
    (hdl : (downloadPhase env t.infiles).2 = true)
    (hsz : sizedOutfiles env (invokedResult env t).outfiles = some sized)
    (hup : (uploadPhase env
      ((globPhase env (taskDirOf env t) t.output_artifacts).2 ++ sized)).2 = true)
    (hpk : env.patchOk = true) :
    ((invokedResult env t).outcome = some RunExc.httpError ∨
     (invokedResult env t).outcome = some RunExc.clientError →
      (stepTask env t).outcome = StepOutcome.nextTask ∧
      (stepTask env t).uploads = [] ∧
      (stepTask env t).patch = none) ∧
    ((invokedResult env t).outcome = some RunExc.genericExc →
     (invokedResult env t).finished = true →
      (stepTask env t).outcome = StepOutcome.nextTask ∧
      (stepTask env t).patch = some
        ((if (invokedResult env t).success then "done" else "error"),
         { warnings := (invokedResult env t).data.warnings ++
             (globPhase env (taskDirOf env t) t.output_artifacts).1,
           errors := (invokedResult env t).data.errors }) ∧
      (stepTask env t).uploads =
        (globPhase env (taskDirOf env t) t.output_artifacts).2 ++ sized) ∧
    ((invokedResult env t).outcome = some RunExc.genericExc →
     (invokedResult env t).finished = false →
      (stepTask env t).outcome = StepOutcome.nextTask ∧
      (stepTask env t).uploads = [] ∧
      (stepTask env t).patch = none) := by
  have hne : t.status ≠ "new" := by rcases hstat with h | h <;> simp [h]
  obtain ⟨B, hB, hBout, hBup, hBpat⟩ :
      ∃ B : StepResult, stepTask env t = dispatch env t B ∧
        B.outcome = StepOutcome.nextTask ∧ B.uploads = [] ∧ B.patch = none := by
    rcases hstat with h | h
    · exact ⟨stepInit,
        by rw [stepTask_fetch env t t hne hf,
               stepAfterAcquire_nonpending env t stepInit hr (by simp [h])],
        rfl, rfl, rfl⟩
    · exact ⟨{ stepInit with
               dirRemoved := env.dirExists,
               dirCreated := true,
               downloads := (downloadPhase env t.infiles).1 },
        by rw [stepTask_fetch env t t hne hf,
               stepAfterAcquire_pending env t stepInit hr h hdl],
        rfl, rfl, rfl⟩
  refine ⟨?_, ?_, ?_⟩
  · intro ho
    rw [hB, dispatch_skip env t B ho]
    exact ⟨hBout, hBup, hBpat⟩
  · intro ho hfin
    rw [hB, dispatch_finalize env t B (Or.inr ho) hfin,
       finalize_ok env t (invokedResult env t)
         { B with invoked := some (t.status == "running") } sized hsz hup hpk]
    exact ⟨rfl, rfl, rfl⟩
  · intro ho hfin
    rw [hB, dispatch_notFinished env t B (Or.inr ho) hfin]
    exact ⟨hBout, hBup, hBpat⟩

/-- A `running` task with a declared output artifact that will match
nothing. -/
def wTaskC3 : Task :=
  { id := "t5", status := "running", runner := some "direct",
    output_artifacts := ["calc.log"], infiles := [] }

/-- Oracle for the generic-exception scenario: `check` raised a generic
exception after setting `finished`, leaving one error entry and one
non-empty outfile. -/
def wStepEnvGeneric : StepEnv :=
  { wStepEnvBase with
    fetchResp := some wTaskC3,
    checkResult :=
      { outcome := some RunExc.genericExc, finished := true, success := false,
        outfiles := ["dd/t5/calc.out"],
        data := { warnings := [],
                  errors := [{ tag := "commands", entry := "calc",
                               msg := "error occurred while running: boom",
                               returncode := none }] } } }

/-- Oracle for the HTTP-error scenario. -/
def wStepEnvHttp : StepEnv :=
  { wStepEnvBase with
    fetchResp := some wTaskC3,
    checkResult := { idleResult with outcome := some RunExc.httpError, finished := true } }

/-- Witness for `step_runcheck_exception_dispatch`: the generic-exception
task is finalized (status patched to `error`, partial log uploaded, glob
warning attached), the HTTP-error task is skipped untouched. -/
theorem step_runcheck_exception_dispatch_witness :
    ((stepTask wStepEnvHttp wTaskC3).outcome = StepOutcome.nextTask ∧
     (stepTask wStepEnvHttp wTaskC3).uploads = [] ∧
     (stepTask wStepEnvHttp wTaskC3).patch = none) ∧
    ((stepTask wStepEnvGeneric wTaskC3).outcome = StepOutcome.nextTask ∧
     (stepTask wStepEnvGeneric wTaskC3).patch = some
       ((if (invokedResult wStepEnvGeneric wTaskC3).success then "done" else "error"),
        { warnings := (invokedResult wStepEnvGeneric wTaskC3).data.warnings ++
            (globPhase wStepEnvGeneric (taskDirOf wStepEnvGeneric wTaskC3)
              wTaskC3.output_artifacts).1,
          errors := (invokedResult wStepEnvGeneric wTaskC3).data.errors }) ∧
     (stepTask wStepEnvGeneric wTaskC3).uploads =
       (globPhase wStepEnvGeneric (taskDirOf wStepEnvGeneric wTaskC3)
         wTaskC3.output_artifacts).2 ++ ["dd/t5/calc.out"]) :=
  ⟨(step_runcheck_exception_dispatch wStepEnvHttp wTaskC3 []
      rfl rfl (Or.inl rfl) rfl rfl rfl rfl).1 (Or.inl rfl),
   (step_runcheck_exception_dispatch wStepEnvGeneric wTaskC3 ["dd/t5/calc.out"]
      rfl rfl (Or.inl rfl) rfl rfl rfl rfl).2.1 rfl rfl⟩

/-- C8 amended: during finalization, a file recorded in the runner's
`outfiles` is added to the upload set through the outfiles collection
only if its size on disk is greater than zero; an outfile of size zero is
not uploaded unless it also matches one of the task's `output_artifacts`
glob patterns, in which case it is uploaded through the artifact
collection (which is not size-filtered). -/
theorem step_upload_size_filter (env : StepEnv) (t : Task) (sized : List String)
    (hf : env.fetchResp = some t)
    (hr : t.runner = some "direct")
    (hstat : t.status = "running" ∨ t.status = "pending")
    (hdl : (downloadPhase env t.infiles).2 = true)
    (ho : (invokedResult env t).outcome = none ∨
          (invokedResult env t).outcome = some RunExc.genericExc)
    (hfin : (invokedResult env t).finished = true)
    (hsz : sizedOutfiles env (invokedResult env t).outfiles = some sized)
    (hup : (uploadPhase env
      ((globPhase env (taskDirOf env t) t.output_artifacts).2 ++ sized)).2 = true)
    (hpk : env.patchOk = true) :
    (stepTask env t).uploads =
      (globPhase env (taskDirOf env t) t.output_artifacts).2 ++ sized ∧
    (∀ f ∈ (invokedResult env t).outfiles, env.sizeOf f = some 0 → f ∉ sized) ∧
    (∀ f ∈ (invokedResult env t).outfiles, env.sizeOf f = some 0 →
      f ∉ (globPhase env (taskDirOf env t) t.output_artifacts).2 →
      f ∉ (stepTask env t).uploads) ∧
    (∀ f ∈ (invokedResult env t).outfiles, ∀ sz : Nat, env.sizeOf f = some sz → sz ≠ 0 →
      f ∈ (stepTask env t).uploads) := by
  have hne : t.status ≠ "new" := by rcases hstat with h | h <;> simp [h]
  have hB : ∃ B : StepResult, stepTask env t = dispatch env t B := by
    rcases hstat with h | h
    · exact ⟨stepInit,
        by rw [stepTask_fetch env t t hne hf,
               stepAfterAcquire_nonpending env t stepInit hr (by simp [h])]⟩
    · exact ⟨{ stepInit with
               dirRemoved := env.dirExists,
               dirCreated := true,
               downloads := (downloadPhase env t.infiles).1 },
        by rw [stepTask_fetch env t t hne hf,
               stepAfterAcquire_pending env t stepInit hr h hdl]⟩
  obtain ⟨B, hB⟩ := hB
  have hupl : (stepTask env t).uploads =
      (globPhase env (taskDirOf env t) t.output_artifacts).2 ++ sized := by
    rw [hB, dispatch_finalize env t B ho hfin,
       finalize_ok env t (invokedResult env t)
         { B with invoked := some (t.status == "running") } sized hsz hup hpk]
  refine ⟨hupl, ?_, ?_, ?_⟩
  · intro f hmem h0
    exact sizedOutfiles_not_mem_zero env h0 _ sized hsz
  · intro f hmem h0 hglob
    rw [hupl]
    intro hin
    rcases List.mem_append.mp hin with h | h
    · exact hglob h
    · exact sizedOutfiles_not_mem_zero env h0 _ sized hsz h
  · intro f hmem sz hsome hnz
    rw [hupl]
    exact List.mem_append.mpr (Or.inr
      (sizedOutfiles_mem_nonzero env hsome hnz _ sized hsz hmem))

/-- A `running` task whose (empty) `.out` log also matches a declared
output artifact glob. -/
def wTaskGlob : Task :=
  { id := "t6", status := "running", runner := some "direct",
    output_artifacts := ["calc.out"], infiles := [] }

/-- Oracle where `dd/t6/calc.out` is an empty file recorded in the
runner's `outfiles` and also matched by the `calc.out` artifact glob. -/
def wStepEnvGlob : StepEnv :=
  { wStepEnvBase with
    fetchResp := some wTaskGlob,
    checkResult :=
      { outcome := none, finished := true, success := true,
        outfiles := ["dd/t6/calc.out"], data := { warnings := [], errors := [] } },
    globMatch := fun p => if p == "dd/t6/calc.out" then ["dd/t6/calc.out"] else [],
    sizeOf := fun _ => some 0 }

/-- Counterexample to C8 as stated: an outfile of size zero IS uploaded
when it also matches an `output_artifacts` glob — the artifact collection
is not size-filtered (fdaemon.py:346-360 vs 363). -/
theorem step_empty_outfile_uploaded :
    "dd/t6/calc.out" ∈ wStepEnvGlob.checkResult.outfiles ∧
    wStepEnvGlob.sizeOf "dd/t6/calc.out" = some 0 ∧
    (stepTask wStepEnvGlob wTaskGlob).uploads = ["dd/t6/calc.out"] := by
  refine ⟨?_, rfl, rfl⟩
  simp [wStepEnvGlob]

/-- Witness for `step_upload_size_filter`: with the empty `calc.out` and
a non-empty `calc.err`, only the non-empty outfile is uploaded through
the outfiles collection. -/
def wStepEnvSized : StepEnv :=
  { wStepEnvBase with
    fetchResp := some wTaskRunning,
    checkResult :=
      { outcome := none, finished := true, success := true,
        outfiles := ["dd/t4/calc.out", "dd/t4/calc.err"],
        data := { warnings := [], errors := [] } },
    sizeOf := fun p => if p == "dd/t4/calc.err" then some 7 else some 0 }

/-- Witness for `step_upload_size_filter` at the concrete oracle. -/
theorem step_upload_size_filter_witness :
    (stepTask wStepEnvSized wTaskRunning).uploads =
      (globPhase wStepEnvSized (taskDirOf wStepEnvSized wTaskRunning)
        wTaskRunning.output_artifacts).2 ++ ["dd/t4/calc.err"] ∧
    "dd/t4/calc.out" ∉ (stepTask wStepEnvSized wTaskRunning).uploads ∧
    "dd/t4/calc.err" ∈ (stepTask wStepEnvSized wTaskRunning).uploads := by
  have h := step_upload_size_filter wStepEnvSized wTaskRunning ["dd/t4/calc.err"]
    rfl rfl (Or.inl rfl) rfl (Or.inl rfl) rfl rfl rfl rfl
  refine ⟨h.1, ?_, ?_⟩
  · exact h.2.2.1 "dd/t4/calc.out" (by decide) rfl (by simp [globPhase])
  · exact h.2.2.2 "dd/t4/calc.err" (by decide) 7 rfl (by decide)

/-- `DirectRunner.check` of fdaemon.py (fdaemon.py:107-127): appends
every configured command's `.out` and `.err` paths to `_outfiles` (with
a not-already-present check) WITHOUT testing that they exist on disk,
sets `_finished = True`, and raises `RuntimeError` (a generic exception
for the daemon's dispatch).  Returns (outfiles, finished, exception
kind). -/
def fdaemonDirectCheck (taskDir : String) (commands : List Command)
    (outfiles0 : List String) : List String × Bool × RunOutcome :=
  (commands.foldl
    (fun acc c =>
      setAdd (setAdd acc (taskDir ++ "/" ++ c.name ++ ".out"))
        (taskDir ++ "/" ++ c.name ++ ".err"))
    outfiles0,
   true, RunOutcome.otherExc)

lemma foldl_setAdd2_init (f g : Command → String) {a : String} :
    ∀ (cs : List Command) (acc : List String), a ∈ acc →
      a ∈ cs.foldl (fun acc c => setAdd (setAdd acc (f c)) (g c)) acc := by
  intro cs
  induction cs with
  | nil => intro acc h; exact h
  | cons c cs ih =>
    intro acc h
    exact ih _ (mem_setAdd_of_mem _ (mem_setAdd_of_mem _ h))

lemma foldl_setAdd2_mem (f g : Command → String) {c : Command} :
    ∀ (cs : List Command) (acc : List String), c ∈ cs →
      f c ∈ cs.foldl (fun acc c => setAdd (setAdd acc (f c)) (g c)) acc ∧
      g c ∈ cs.foldl (fun acc c => setAdd (setAdd acc (f c)) (g c)) acc := by
  intro cs
  induction cs with
  | nil => intro acc h; cases h
  | cons d ds ih =>
    intro acc h
    rcases List.mem_cons.mp h with h | h
    · subst h
      constructor
      · exact foldl_setAdd2_init f g ds _
          (mem_setAdd_of_mem _ (mem_setAdd_self _ _))
      · exact foldl_setAdd2_init f g ds _ (mem_setAdd_self _ _)
    · exact ih _ h

/-- C10: when the runner's `finished` flag is true but some path recorded
in its `outfiles` does not exist on disk, finalization raises an uncaught
filesystem error at `path.getsize` (fdaemon.py:363): no artifact is
uploaded, no terminal `done`/`error` patch is sent, and the exception
propagates out of `main` — the daemon process terminates.  The situation
is reachable because fdaemon's `DirectRunner.check` records every
configured command's `.out`/`.err` paths without an existence check
(while setting `finished` and raising a generic `RuntimeError`, which the
dispatch swallows before finalizing). -/
theorem step_missing_outfile_fatal (env : StepEnv) (t : Task) (f : String)
    (hf : env.fetchResp = some t)
    (hr : t.runner = some "direct")
    (hst : t.status = "running")
    (ho : (invokedResult env t).outcome = none ∨
          (invokedResult env t).outcome = some RunExc.genericExc)
    (hfin : (invokedResult env t).finished = true)
    (hmem : f ∈ (invokedResult env t).outfiles)
    (hmiss : env.sizeOf f = none) :
    ((stepTask env t).outcome = StepOutcome.fatal ∧
     (stepTask env t).uploads = [] ∧
     (stepTask env t).patch = none) ∧
    (∀ (td : String) (cs : List Command) (c : Command) (s0 : List String), c ∈ cs →
      td ++ "/" ++ c.name ++ ".out" ∈ (fdaemonDirectCheck td cs s0).1 ∧
      td ++ "/" ++ c.name ++ ".err" ∈ (fdaemonDirectCheck td cs s0).1 ∧
      (fdaemonDirectCheck td cs s0).2.1 = true ∧
      (fdaemonDirectCheck td cs s0).2.2 = RunOutcome.otherExc) := by
  constructor
  · have hne : t.status ≠ "new" := by simp [hst]
    have hnp : t.status ≠ "pending" := by simp [hst]
    rw [stepTask_fetch env t t hne hf, stepAfterAcquire_nonpending env t stepInit hr hnp,
      dispatch_finalize env t stepInit ho hfin,
      finalize_missing env t (invokedResult env t)
        { stepInit with invoked := some (t.status == "running") } f hmem hmiss]
    exact ⟨rfl, rfl, rfl⟩
  · intro td cs c s0 hc
    have h := foldl_setAdd2_mem (fun c => td ++ "/" ++ c.name ++ ".out")
      (fun c => td ++ "/" ++ c.name ++ ".err") cs s0 hc
    exact ⟨h.1, h.2, rfl, rfl⟩

/-- Oracle for the missing-outfile scenario: the `running` task's check
recorded `dd/t4/calc.out` in `outfiles` (as fdaemon's check does, without
an existence test), but the file is absent, so `getsize` raises. -/
def wStepEnvMissing : StepEnv :=
  { wStepEnvBase with
    fetchResp := some wTaskRunning,
    checkResult :=
      { outcome := some RunExc.genericExc, finished := true, success := false,
        outfiles := ["dd/t4/calc.out"], data := { warnings := [], errors := [] } },
    sizeOf := fun _ => none }

/-- Witness for `step_missing_outfile_fatal` at the concrete oracle. -/
theorem step_missing_outfile_fatal_witness :
    ((stepTask wStepEnvMissing wTaskRunning).outcome = StepOutcome.fatal ∧
     (stepTask wStepEnvMissing wTaskRunning).uploads = [] ∧
     (stepTask wStepEnvMissing wTaskRunning).patch = none) ∧
    ("wd/calc.out" ∈
      (fdaemonDirectCheck "wd"
        [{ name := "calc", cmd := "/bin/false", args := [], ignore_returncode := false }]
        []).1) := by
  have h := step_missing_outfile_fatal wStepEnvMissing wTaskRunning "dd/t4/calc.out"
    rfl rfl rfl (Or.inr rfl) rfl (by decide) rfl
  refine ⟨h.1, ?_⟩
  exact (h.2 "wd"
    [{ name := "calc", cmd := "/bin/false", args := [], ignore_returncode := false }]
    { name := "calc", cmd := "/bin/false", args := [], ignore_returncode := false }
    [] (by decide)).1

end Flatman
